import Mathlib

set_option maxHeartbeats 1000000

/-! Verification of the provider-agnostic streaming chat core of the Mode
repository: message normalization (`filterDiagnosticMessages`,
`formatImageContent`), the provider adapters' streaming loop
(`anthropicChat`, `openaiChat`, `mistralChat`), the client registry
(`AIClientFactory`), and the orchestrator's session-overview call.
Definitions are shallow embeddings of `src/common/llms/aiClient.ts`,
`src/common/llms/aiClientFactory.ts` and
`src/capabilities/chat/request/chat.manager.ts`. -/

/-- Characterwise check that the second list occurs at the start of the
first; the computational core of JavaScript `String.prototype.startsWith`
on code-unit sequences. -/
def listStarts : List Char → List Char → Bool
  | _, [] => true
  | [], _ :: _ => false
  | c :: cs, d :: ds => c == d && listStarts cs ds

/-- Model of the JavaScript expression `s.startsWith(p)`. -/
def jsStartsWith (s p : String) : Bool :=
  listStarts s.data p.data

theorem listStarts_iff : ∀ (l p : List Char), listStarts l p = true ↔ ∃ t, l = p ++ t
  | _, [] => by simp [listStarts]
  | [], _ :: _ => by simp [listStarts]
  | c :: cs, d :: ds => by
      simp only [listStarts, Bool.and_eq_true, beq_iff_eq, listStarts_iff cs ds,
        List.cons_append, List.cons.injEq]
      constructor
      · rintro ⟨rfl, t, rfl⟩
        exact ⟨t, rfl, rfl⟩
      · rintro ⟨t, rfl, rfl⟩
        exact ⟨rfl, t, rfl⟩

theorem jsStartsWith_iff (s p : String) :
    jsStartsWith s p = true ↔ ∃ t, s.data = p.data ++ t :=
  listStarts_iff s.data p.data

/-- The internal diagnostic sentinel checked by `filterDiagnosticMessages`. -/
def modeSentinel : String := "Mode."

/-- The `type` tag of a structured text part. -/
def textTypeTag : String := "text"

/-- One element of an array-valued message content: a raw string, or an
object with optional `type` and `text` fields (the array elements are
`any` in the source). -/
inductive ContentItem where
  | str (s : String)
  | obj (ty : Option String) (text : Option String)
deriving DecidableEq

/-- The `content` field of an `AIMessage`: `string | Array<any>`. -/
inductive MsgContent where
  | str (s : String)
  | arr (items : List ContentItem)
deriving DecidableEq

/-- Embeds the `AIMessage` interface of aiClient.ts (lines 11-16): the
`type` field is `some "image"` exactly on image-marked messages. -/
structure AIMessage where
  role : String
  content : MsgContent
  name : Option String := none
  type : Option String := none
deriving DecidableEq

/-- The per-item test inside `filterDiagnosticMessages` (lines 75-78): a
raw string element starting with the sentinel, or an object with
`type === 'text'` whose (possibly absent) `text` field starts with it. -/
def itemIsDiagnostic : ContentItem → Bool
  | .str s => jsStartsWith s modeSentinel
  | .obj ty text =>
      ty == some textTypeTag &&
        (match text with
         | some t => jsStartsWith t modeSentinel
         | none => false)

/-- Embeds `filterDiagnosticMessages` (aiClient.ts lines 68-82). -/
def filterDiagnosticMessages (messages : List AIMessage) : List AIMessage :=
  messages.filter fun msg =>
    match msg.content with
    | .str s => !(jsStartsWith s modeSentinel)
    | .arr items => !(items.any itemIsDiagnostic)

/-- The claim's description of a diagnostic message: string content
starting with the sentinel prefix `Mode.`, or array content containing
some text-typed part (or raw string element) starting with that prefix. -/
def DiagnosticSpec (msg : AIMessage) : Prop :=
  (∃ s, msg.content = .str s ∧ ∃ t, s.data = modeSentinel.data ++ t) ∨
  (∃ items, msg.content = .arr items ∧ ∃ it, it ∈ items ∧
    ((∃ s, it = .str s ∧ ∃ t, s.data = modeSentinel.data ++ t) ∨
     (∃ txt, it = .obj (some textTypeTag) (some txt) ∧
        ∃ t, txt.data = modeSentinel.data ++ t)))

theorem itemIsDiagnostic_iff (it : ContentItem) :
    itemIsDiagnostic it = true ↔
      (∃ s, it = .str s ∧ ∃ t, s.data = modeSentinel.data ++ t) ∨
      (∃ txt, it = .obj (some textTypeTag) (some txt) ∧
        ∃ t, txt.data = modeSentinel.data ++ t) := by
  cases it with
  | str s =>
      simp [itemIsDiagnostic, jsStartsWith_iff]
  | obj ty text =>
      cases text with
      | none => simp [itemIsDiagnostic]
      | some t =>
          constructor
          · intro hdiag
            have hb := hdiag
            simp only [itemIsDiagnostic, Bool.and_eq_true, beq_iff_eq] at hb
            obtain ⟨hty, ht⟩ := hb
            exact Or.inr ⟨t, by rw [hty], (jsStartsWith_iff t modeSentinel).1 ht⟩
          · rintro (⟨s, hs, _⟩ | ⟨txt, htxt, ht⟩)
            · exact absurd hs (by simp)
            · injection htxt with h1 h2
              injection h2 with h2
              subst h1
              subst h2
              simp only [itemIsDiagnostic, Bool.and_eq_true, beq_iff_eq, jsStartsWith_iff]
              exact ⟨trivial, ht⟩

theorem filterKeep_iff (msg : AIMessage) :
    (match msg.content with
      | .str s => !(jsStartsWith s modeSentinel)
      | .arr items => !(items.any itemIsDiagnostic)) = true ↔ ¬ DiagnosticSpec msg := by
  cases h : msg.content with
  | str s =>
      simp only [Bool.not_eq_true', Bool.not_eq_true]
      rw [show (jsStartsWith s modeSentinel = false) ↔ ¬ (jsStartsWith s modeSentinel = true) by
        simp]
      rw [jsStartsWith_iff]
      unfold DiagnosticSpec
      simp [h]
  | arr items =>
      simp only [Bool.not_eq_true', Bool.not_eq_true]
      rw [show (items.any itemIsDiagnostic = false) ↔ ¬ (items.any itemIsDiagnostic = true) by
        simp]
      rw [List.any_eq_true]
      unfold DiagnosticSpec
      simp only [h, MsgContent.arr.injEq, MsgContent.str.injEq]
      constructor
      · intro hno hspec
        rcases hspec with ⟨s, hs, _⟩ | ⟨its, hits, it, hmem, hit⟩
        · exact absurd hs (by simp)
        · cases hits
          exact hno ⟨it, hmem, (itemIsDiagnostic_iff it).2 hit⟩
      · intro hspec ⟨it, hmem, hdiag⟩
        exact hspec (Or.inr ⟨items, rfl, it, hmem, (itemIsDiagnostic_iff it).1 hdiag⟩)

/-- C2: `filterDiagnosticMessages` removes exactly the messages whose
string content starts with the sentinel prefix `Mode.` or whose array
content contains a text-typed part (or raw string element) starting with
that prefix; every other message passes through unchanged and the
surviving messages keep their original relative order (the result is a
sublist of the input). -/
theorem filterDiagnostic_removes_exactly_diagnostics (messages : List AIMessage) :
    List.Sublist (filterDiagnosticMessages messages) messages ∧
    ∀ msg, msg ∈ filterDiagnosticMessages messages ↔
      msg ∈ messages ∧ ¬ DiagnosticSpec msg := by
  constructor
  · exact List.filter_sublist messages
  · intro msg
    rw [filterDiagnosticMessages, List.mem_filter, filterKeep_iff]

/-- Errors surfaced by the adapters: a transport-level stream failure or
the `Unsupported provider` error thrown by `chat`'s dispatch. -/
inductive ChatError where
  | streamError (message : String)
  | unsupportedProvider (provider : String)
deriving DecidableEq

instance : DecidableEq (Except ChatError String) := fun x y =>
  match x, y with
  | .ok a, .ok b => if h : a = b then isTrue (by rw [h]) else isFalse (by simp [h])
  | .error a, .error b => if h : a = b then isTrue (by rw [h]) else isFalse (by simp [h])
  | .ok _, .error _ => isFalse (by simp)
  | .error _, .ok _ => isFalse (by simp)

/-- Observable outcome of one adapter streaming call: the value returned
(or error thrown), the `onToken` arguments in order, and the
`onComplete` argument when that callback was invoked. -/
structure StreamOutcome where
  result : Except ChatError String
  tokens : List String
  completed : Option String
deriving DecidableEq

/-- Concatenation of the fragments delivered to `onToken`. -/
def concatTokens : List String → String
  | [] => ""
  | t :: ts => t ++ concatTokens ts

/-- The `isCancelled` flag as observed at polling step `i` of one call:
`stopGeneration` (aiClient.ts lines 110-112) sets the flag once, and
`cancelAt = some c` means the flag is first seen true at step `c`; the
flag is reset to false at call start, so earlier calls do not leak in. -/
def cancelledBy (cancelAt : Option Nat) (i : Nat) : Bool :=
  match cancelAt with
  | none => false
  | some c => decide (c ≤ i)

/-- The per-chunk streaming loop shared by the adapters (aiClient.ts
lines 140-161 for anthropic, 181-200 for openai, and likewise for
google/cohere/mistral): at each delivered chunk the cancellation flag is
polled; if set, the accumulated text is returned with no further
callbacks. Otherwise the chunk's fragment is extracted and, when
non-empty, appended to the accumulator and delivered to `onToken`. When
the delivered chunks are exhausted, a pending transport error is caught
and rethrown unless the flag is set at that point (then the partial text
is returned silently); on normal exhaustion `onComplete` fires once with
the full text, which is also returned. -/
def streamLoop (extract : α → String) (cancelAt : Option Nat) (err : Option ChatError) :
    Nat → String → List α → StreamOutcome
  | i, acc, [] =>
      match err with
      | some e =>
          if cancelledBy cancelAt i then ⟨.ok acc, [], none⟩ else ⟨.error e, [], none⟩
      | none => ⟨.ok acc, [], some acc⟩
  | i, acc, chunk :: rest =>
      if cancelledBy cancelAt i then ⟨.ok acc, [], none⟩
      else
        let t := extract chunk
        if t = "" then streamLoop extract cancelAt err (i + 1) acc rest
        else
          let out := streamLoop extract cancelAt err (i + 1) (acc ++ t) rest
          { out with tokens := t :: out.tokens }

/-- A chunk of the Anthropic streaming response: `contentBlockDelta
(some t)` models `type === 'content_block_delta'` with a `text_delta`
delta carrying `t`; `contentBlockDelta none` a `content_block_delta`
whose delta is absent or not a `text_delta`; `otherChunk` any other
chunk type (skipped by the loop). -/
inductive AnthropicChunk where
  | contentBlockDelta (deltaText : Option String)
  | otherChunk
deriving DecidableEq

/-- Fragment extraction of `anthropicChat` (lines 145-151): the value
bound to `text` for each chunk; non-`content_block_delta` chunks are
skipped, which coincides with extracting the empty fragment. -/
def anthropicDelta : AnthropicChunk → String
  | .contentBlockDelta (some t) => t
  | .contentBlockDelta none => ""
  | .otherChunk => ""

/-- A chunk of the OpenAI streaming response, reduced to the field the
loop reads: `chunk.choices[0]?.delta?.content` (absent modelled as
`none`). -/
structure OpenAIChunk where
  content : Option String
deriving DecidableEq

/-- Fragment extraction of `openaiChat` (line 186):
`chunk.choices[0]?.delta?.content || ''`. -/
def openaiDelta (chunk : OpenAIChunk) : String :=
  match chunk.content with
  | some t => t
  | none => ""

/-- Embeds the streaming part of `anthropicChat` (aiClient.ts lines
130-161). The request construction is environmental here: the chunks the
transport actually delivers, the transport error terminating the stream
(if any), and the step at which the cancellation flag becomes visible
are parameters of the model. -/
def anthropicChat (cancelAt : Option Nat) (chunks : List AnthropicChunk)
    (err : Option ChatError) : StreamOutcome :=
  streamLoop anthropicDelta cancelAt err 0 "" chunks

/-- Embeds the streaming part of `openaiChat` (aiClient.ts lines
167-200), parametrized like `anthropicChat`. -/
def openaiChat (cancelAt : Option Nat) (chunks : List OpenAIChunk)
    (err : Option ChatError) : StreamOutcome :=
  streamLoop openaiDelta cancelAt err 0 "" chunks

theorem cancelledBy_mono {cancelAt : Option Nat} {i j : Nat} (hij : i ≤ j)
    (h : cancelledBy cancelAt i = true) : cancelledBy cancelAt j = true := by
  cases cancelAt with
  | none => simp [cancelledBy] at h
  | some c =>
      simp only [cancelledBy, decide_eq_true_eq] at h ⊢
      omega

theorem streamLoop_cancelled_mid (extract : α → String) (c : Nat) (err : Option ChatError)
    (chunks : List α) :
    ∀ (i : Nat) (acc : String), i ≤ c → c < i + chunks.length →
      (streamLoop extract (some c) err i acc chunks).completed = none ∧
      (streamLoop extract (some c) err i acc chunks).result =
        .ok (acc ++ concatTokens (streamLoop extract (some c) err i acc chunks).tokens) := by
  induction chunks with
  | nil =>
      intro i acc hic hlen
      simp only [List.length_nil] at hlen
      omega
  | cons chunk rest ih =>
      intro i acc hic hlen
      rw [List.length_cons] at hlen
      by_cases hcb : c ≤ i
      · have hc : cancelledBy (some c) i = true := by
          simp [cancelledBy, hcb]
        simp [streamLoop, hc, concatTokens]
      · have hc : cancelledBy (some c) i = false := by
          simp only [cancelledBy, decide_eq_false_iff_not]
          omega
        by_cases ht : extract chunk = ""
        · have hred : streamLoop extract (some c) err i acc (chunk :: rest) =
              streamLoop extract (some c) err (i + 1) acc rest := by
            simp [streamLoop, hc, ht]
          rw [hred]
          exact ih (i + 1) acc (by omega) (by omega)
        · have hrec := ih (i + 1) (acc ++ extract chunk) (by omega) (by omega)
          have hred : streamLoop extract (some c) err i acc (chunk :: rest) =
              { streamLoop extract (some c) err (i + 1) (acc ++ extract chunk) rest with
                tokens := extract chunk ::
                  (streamLoop extract (some c) err (i + 1) (acc ++ extract chunk) rest).tokens } := by
            simp [streamLoop, hc, ht]
          rw [hred]
          refine ⟨by simpa using hrec.1, ?_⟩
          show (streamLoop extract (some c) err (i + 1) (acc ++ extract chunk) rest).result =
            .ok (acc ++ concatTokens (extract chunk ::
              (streamLoop extract (some c) err (i + 1) (acc ++ extract chunk) rest).tokens))
          rw [hrec.2]
          simp [concatTokens, String.append_assoc]

theorem streamLoop_error (extract : α → String) (cancelAt : Option Nat) (e : ChatError)
    (chunks : List α) :
    ∀ (i : Nat) (acc : String),
      (streamLoop extract cancelAt (some e) i acc chunks).completed = none ∧
      (streamLoop extract cancelAt (some e) i acc chunks).result =
        (if cancelledBy cancelAt (i + chunks.length)
         then .ok (acc ++ concatTokens (streamLoop extract cancelAt (some e) i acc chunks).tokens)
         else .error e) := by
  induction chunks with
  | nil =>
      intro i acc
      by_cases hc : cancelledBy cancelAt i = true
      · simp [streamLoop, hc, concatTokens]
      · have hc' : cancelledBy cancelAt i = false := by simpa using hc
        simp [streamLoop, hc', concatTokens]
  | cons chunk rest ih =>
      intro i acc
      by_cases hc : cancelledBy cancelAt i = true
      · have hcn : cancelledBy cancelAt (i + (rest.length + 1)) = true := by
          refine cancelledBy_mono ?_ hc
          omega
        simp [streamLoop, hc, hcn, concatTokens]
      · have hc' : cancelledBy cancelAt i = false := by simpa using hc
        have hidx : i + (chunk :: rest).length = (i + 1) + rest.length := by
          simp only [List.length_cons]
          omega
        by_cases ht : extract chunk = ""
        · have hred : streamLoop extract cancelAt (some e) i acc (chunk :: rest) =
              streamLoop extract cancelAt (some e) (i + 1) acc rest := by
            simp [streamLoop, hc', ht]
          rw [hred, hidx]
          exact ih (i + 1) acc
        · have hrec := ih (i + 1) (acc ++ extract chunk)
          have hred : streamLoop extract cancelAt (some e) i acc (chunk :: rest) =
              { streamLoop extract cancelAt (some e) (i + 1) (acc ++ extract chunk) rest with
                tokens := extract chunk ::
                  (streamLoop extract cancelAt (some e) (i + 1) (acc ++ extract chunk) rest).tokens } := by
            simp [streamLoop, hc', ht]
          rw [hred, hidx]
          refine ⟨by simpa using hrec.1, ?_⟩
          show (streamLoop extract cancelAt (some e) (i + 1) (acc ++ extract chunk) rest).result = _
          rw [hrec.2]
          by_cases hcn : cancelledBy cancelAt ((i + 1) + rest.length) = true
      
          · simp [hcn, concatTokens, String.append_assoc]
          · have hcn' : cancelledBy cancelAt ((i + 1) + rest.length) = false := by
              simpa using hcn
            simp [hcn', concatTokens]

/-- C1: if the cancellation requested by `stopGeneration` is observed by
`anthropicChat` at some chunk before the backend stream is exhausted,
after at least one `onToken` call has been made, then `onComplete` is
never invoked for that call and the value returned by the call equals
the concatenation of exactly the fragments delivered to `onToken` before
cancellation was observed. -/
theorem anthropicChat_cancel_mid_stream (chunks : List AnthropicChunk)
    (err : Option ChatError) (c : Nat) (hmid : c < chunks.length)
    (_htok : (anthropicChat (some c) chunks err).tokens ≠ []) :
    (anthropicChat (some c) chunks err).completed = none ∧
    (anthropicChat (some c) chunks err).result =
      .ok (concatTokens (anthropicChat (some c) chunks err).tokens) := by
  have h := streamLoop_cancelled_mid anthropicDelta c err chunks 0 "" (Nat.zero_le c)
    (by omega)
  refine ⟨by simpa [anthropicChat] using h.1, ?_⟩
  have h2 := h.2
  simpa [anthropicChat] using h2

/-- First fragment of the witness stream for C1. -/
def tokA : String := "ab"

/-- Second fragment of the witness stream for C1. -/
def tokB : String := "cd"

/-- Witness stream for C1: two text deltas followed by a non-delta chunk. -/
def c1Chunks : List AnthropicChunk :=
  [.contentBlockDelta (some tokA), .contentBlockDelta (some tokB), .otherChunk]

/-- Witness for C1: on the concrete stream `c1Chunks` with cancellation
observed at step 1 (after one delivered token), `onComplete` stays
uninvoked and the call returns the single delivered fragment. -/
theorem anthropicChat_cancel_mid_stream_witness :
    (anthropicChat (some 1) c1Chunks none).completed = none ∧
    (anthropicChat (some 1) c1Chunks none).result =
      .ok (concatTokens (anthropicChat (some 1) c1Chunks none).tokens) :=
  anthropicChat_cancel_mid_stream c1Chunks none 1 (by decide) (by decide)

/-- C6: when the backend stream raises an error after the delivered
chunks, `anthropicChat` and `openaiChat` rethrow that same error
unchanged if cancellation has not been requested by the time the error
is observed, and otherwise return the accumulated partial text (the
concatenation of the delivered fragments) normally; `onComplete` is
never invoked on the error path in either case. -/
theorem stream_error_cancellation_precedence (cancelAt : Option Nat) (e : ChatError)
    (achunks : List AnthropicChunk) (ochunks : List OpenAIChunk) :
    ((anthropicChat cancelAt achunks (some e)).completed = none ∧
      (anthropicChat cancelAt achunks (some e)).result =
        (if cancelledBy cancelAt achunks.length
         then .ok (concatTokens (anthropicChat cancelAt achunks (some e)).tokens)
         else .error e)) ∧
    ((openaiChat cancelAt ochunks (some e)).completed = none ∧
      (openaiChat cancelAt ochunks (some e)).result =
        (if cancelledBy cancelAt ochunks.length
         then .ok (concatTokens (openaiChat cancelAt ochunks (some e)).tokens)
         else .error e)) := by
  have ha := streamLoop_error anthropicDelta cancelAt e achunks 0 ""
  have ho := streamLoop_error openaiDelta cancelAt e ochunks 0 ""
  constructor
  · refine ⟨by simpa [anthropicChat] using ha.1, ?_⟩
    have h2 := ha.2
    simp only [Nat.zero_add] at h2
    simpa [anthropicChat] using h2
  · refine ⟨by simpa [openaiChat] using ho.1, ?_⟩
    have h2 := ho.2
    simp only [Nat.zero_add] at h2
    simpa [openaiChat] using h2

/-- Provider id that needs no credential in `createClient`. -/
def ollamaName : String := "ollama"

/-- The dash separating the provider and model components of a cache key. -/
def dashStr : String := "-"

/-- Fallback model component of a cache key (`model || 'default'`). -/
def defaultModelName : String := "default"

/-- A cached client instance, identified by the value of the allocation
counter at its construction: equal numbers model pointer equality. -/
abbrev ClientId := Nat

/-- The factory's static state: the `instances` map (association list,
newest binding first) and the number of `new AIClient(...)`
constructions performed so far, used to mint instance identities. -/
structure FactoryState where
  instances : List (String × ClientId)
  built : Nat
deriving DecidableEq

/-- The factory state before any client is created. -/
def emptyFactory : FactoryState := ⟨[], 0⟩

/-- `Map.get` on the instances association list. -/
def mapGet (m : List (String × ClientId)) (k : String) : Option ClientId :=
  match m with
  | [] => none
  | (k0, v) :: rest => if k0 = k then some v else mapGet rest k

/-- JS `s || d` for the model component: empty string is falsy. -/
def jsOrDefault (s d : String) : String := if s = "" then d else s

/-- The cache key of aiClientFactory.ts line 20:
`` `${provider}-${model || 'default'}` ``. -/
def instanceKey (provider model : String) : String :=
  provider ++ dashStr ++ jsOrDefault model defaultModelName

/-- Result of `createClient`: mirrors `{ success; message?; client? }`. -/
inductive CreateResult where
  | success (client : ClientId)
  | failure (message : String)
deriving DecidableEq

/-- JS truthiness check `!apiKey` on the resolved key: `undefined` and
the empty string are falsy. -/
def keyFalsy : Option String → Bool
  | none => true
  | some s => s == ""

/-- The `APIKey.<provider>.Missing` failure message of line 35. -/
def missingKeyMessage (provider : String) : String :=
  "APIKey." ++ provider ++ ".Missing"

/-- Embeds `AIClientFactory.createClient` (aiClientFactory.ts lines
16-61). The external `ApiKeyManager.getApiKey` is the `getApiKey`
parameter. A cache hit returns the stored instance unchanged; otherwise,
for providers other than ollama, a missing (or empty, hence falsy) key
yields the `APIKey.<provider>.Missing` failure before anything is
constructed; else a fresh client is constructed, cached under the key
and returned. The external model registry lookup and the adapter
constructor never throw in this model, so the `Failed to initialize`
catch arm is unreachable and is not represented. -/
def createClient (getApiKey : String → Option String) (st : FactoryState)
    (provider model : String) : CreateResult × FactoryState :=
  let key := instanceKey provider model
  match mapGet st.instances key with
  | some client => (.success client, st)
  | none =>
      if provider != ollamaName && keyFalsy (getApiKey provider) then
        (.failure (missingKeyMessage provider), st)
      else
        (.success st.built, ⟨(key, st.built) :: st.instances, st.built + 1⟩)

/-- Embeds `AIClientFactory.getInstance` (lines 63-66): pure lookup. -/
def getInstance (st : FactoryState) (provider model : String) : Option ClientId :=
  mapGet st.instances (instanceKey provider model)

/-- Embeds `AIClientFactory.invalidateClientsForProvider` (lines 68-75):
deletes every cached instance whose key starts with `` `${provider}-` ``. -/
def invalidateClientsForProvider (provider : String) (st : FactoryState) : FactoryState :=
  { st with instances :=
      st.instances.filter fun pr => !(jsStartsWith pr.1 (provider ++ dashStr)) }

theorem mapGet_cons_self (k : String) (v : ClientId) (m : List (String × ClientId)) :
    mapGet ((k, v) :: m) k = some v := by
  simp [mapGet]

/-- C3: two sequential `createClient` calls for the same provider and
model, with no intervening invalidation, both succeed (given that the
provider needs no key or its key resolves to a truthy value) and return
the identical cached client instance; the second call is a pure cache
hit that leaves the factory state — including the construction counter —
untouched. -/
theorem createClient_cached_instance (getApiKey : String → Option String)
    (st : FactoryState) (provider model : String)
    (hkey : provider = ollamaName ∨ keyFalsy (getApiKey provider) = false) :
    ∃ client st1,
      createClient getApiKey st provider model = (.success client, st1) ∧
      createClient getApiKey st1 provider model = (.success client, st1) := by
  have hcond : (provider != ollamaName && keyFalsy (getApiKey provider)) = false := by
    rcases hkey with h | h
    · simp [h]
    · simp [h]
  cases hhit : mapGet st.instances (instanceKey provider model) with
  | some client =>
      refine ⟨client, st, ?_, ?_⟩ <;> simp [createClient, hhit]
  | none =>
      refine ⟨st.built, ⟨(instanceKey provider model, st.built) :: st.instances, st.built + 1⟩,
        ?_, ?_⟩
      · simp [createClient, hhit, hcond]
      · simp [createClient, mapGet_cons_self]

/-- A provider id used in concrete factory runs. -/
def anthropicName : String := "anthropic"

/-- A model id used in concrete factory runs. -/
def m1Name : String := "m1"

/-- A credential value used in concrete factory runs. -/
def keyK : String := "k"

/-- Witness for C3: with every credential present, two sequential
`createClient('anthropic','m1')` calls from the empty cache succeed and
agree on one instance and one final state. -/
theorem createClient_cached_instance_witness :
    ∃ client st1,
      createClient (fun _ => some keyK) emptyFactory anthropicName m1Name =
        (.success client, st1) ∧
      createClient (fun _ => some keyK) st1 anthropicName m1Name =
        (.success client, st1) :=
  createClient_cached_instance (fun _ => some keyK) emptyFactory anthropicName m1Name
    (Or.inr (by decide))

/-- C5: for a provider that requires a credential, when the credential
provider yields nothing and the cache holds no entry for the requested
key, `createClient` fails with the `APIKey.<provider>.Missing` message
and returns the factory state unchanged: no adapter is constructed and
the cache stays empty for that key. -/
theorem createClient_missing_credential (getApiKey : String → Option String)
    (st : FactoryState) (provider model : String)
    (hprov : provider ≠ ollamaName)
    (habsent : getApiKey provider = none)
    (hmiss : getInstance st provider model = none) :
    createClient getApiKey st provider model =
      (.failure (missingKeyMessage provider), st) := by
  rw [getInstance] at hmiss
  have hcond : (provider != ollamaName && keyFalsy (getApiKey provider)) = true := by
    simp [habsent, keyFalsy, hprov]
  simp [createClient, hmiss, hcond]

/-- The provider id of the claimed missing-credential scenario. -/
def xName : String := "X"

/-- The failure message the claimed scenario expects. -/
def apiKeyXMissing : String := "APIKey.X.Missing"

/-- Witness for C5: `createClient('X','m1')` with an absent credential
and an empty cache yields exactly `APIKey.X.Missing` and the unchanged
empty state. -/
theorem createClient_missing_credential_witness :
    createClient (fun _ => none) emptyFactory xName m1Name =
      (.failure apiKeyXMissing, emptyFactory) := by
  rw [createClient_missing_credential (fun _ => none) emptyFactory xName m1Name
    (by decide) rfl (by decide)]
  rfl

theorem mapGet_invalidate_list (p k : String) :
    ∀ l : List (String × ClientId),
      mapGet (l.filter fun pr => !(jsStartsWith pr.1 (p ++ dashStr))) k =
        (if jsStartsWith k (p ++ dashStr) then none else mapGet l k) := by
  intro l
  induction l with
  | nil => simp [mapGet]
  | cons hd tl ih =>
      obtain ⟨k0, v⟩ := hd
      by_cases hkeep : jsStartsWith k0 (p ++ dashStr) = true
      · by_cases heq : k0 = k
        · subst heq
          simp [List.filter_cons, hkeep, mapGet, ih]
        · simp [List.filter_cons, hkeep, mapGet, heq, ih]
      · have hkeep' : jsStartsWith k0 (p ++ dashStr) = false := by simpa using hkeep
        by_cases heq : k0 = k
        · subst heq
          simp [List.filter_cons, hkeep', mapGet]
        · simp [List.filter_cons, hkeep', mapGet, heq, ih]

theorem jsStartsWith_instanceKey (p m : String) :
    jsStartsWith (instanceKey p m) (p ++ dashStr) = true := by
  rw [jsStartsWith_iff, instanceKey]
  exact ⟨(jsOrDefault m defaultModelName).data, by simp⟩

/-- C4 (amended): `invalidateClientsForProvider(P)` removes exactly the
entries whose key starts with the text `P-`: afterwards a lookup whose
composite key has that prefix returns nothing — in particular every
entry cached for provider P itself is gone — and a lookup whose key
lacks that prefix is unchanged. Eviction matches on the key text, not on
the key's provider component, so an entry of a different provider whose
key happens to start with `P-` is also removed. -/
theorem invalidate_removes_by_key_prefix (st : FactoryState) (p q m : String) :
    (getInstance (invalidateClientsForProvider p st) q m =
      (if jsStartsWith (instanceKey q m) (p ++ dashStr) then none
       else getInstance st q m)) ∧
    getInstance (invalidateClientsForProvider p st) p m = none := by
  constructor
  · exact mapGet_invalidate_list p (instanceKey q m) st.instances
  · have h := mapGet_invalidate_list p (instanceKey p m) st.instances
    rw [jsStartsWith_instanceKey] at h
    simpa [getInstance, invalidateClientsForProvider] using h

/-- A provider id containing a dash, cached before the invalidation. -/
def abProvider : String := "a-b"

/-- The provider id passed to the invalidation. -/
def aProvider : String := "a"

/-- The model id of the concrete invalidation scenario. -/
def mName : String := "m"

/-- Factory state after `createClient('a-b','m')` on the empty cache
with all credentials present. -/
def dashState : FactoryState :=
  (createClient (fun _ => some keyK) emptyFactory abProvider mName).2

/-- Counterexample to C4 as stated: provider `a-b` is a different
provider id than `a` and holds a cached entry, yet
`invalidateClientsForProvider('a')` evicts that entry, because eviction
matches the textual key prefix `a-` rather than the key's provider
component. -/
theorem invalidate_cross_provider_eviction :
    abProvider ≠ aProvider ∧
    getInstance dashState abProvider mName = some 0 ∧
    getInstance (invalidateClientsForProvider aProvider dashState) abProvider mName =
      none := by
  refine ⟨by decide, by decide, by decide⟩

/-- Block vocabulary of `formatImageContent`'s structured outputs. -/
inductive ContentBlock where
  | anthropicImage (mediaType : String) (data : String)
  | textBlock (text : String)
  | imageUrl (url : String)
  | googleText (text : String)
  | inlineData (data : String) (mimeType : String)
deriving DecidableEq

/-- Output of `formatImageContent`: a list of structured blocks or a
plain string (the no-vision placeholder). -/
inductive FormattedContent where
  | blocks (bs : List ContentBlock)
  | text (s : String)
deriving DecidableEq

/-- The data-URL header checked to detect a png image. -/
def pngHeader : String := "data:image/png"

/-- The anchored png alternative of the stripping regex. -/
def pngB64Header : String := "data:image/png;base64,"

/-- The anchored jpeg alternative of the stripping regex. -/
def jpegB64Header : String := "data:image/jpeg;base64,"

/-- Media type emitted for png images. -/
def pngMime : String := "image/png"

/-- Media type emitted for jpeg images. -/
def jpegMime : String := "image/jpeg"

/-- The trailing descriptive text block of the anthropic shape. -/
def describeImageText : String := "Describe this image."

/-- The leading text part of the google shape. -/
def heresAnImageText : String := "Here\x27s an image: "

/-- The default-arm placeholder of `formatImageContent`. -/
def imagePlainText : String := "[Image]"

/-- Model of the replacement
`imageData.replace(/^data:image\x2f(png|jpeg);base64,/, '')`: when the
string starts with one of the two anchored alternatives that header is
removed, otherwise the string is returned unchanged. -/
def stripImageHeader (s : String) : String :=
  if jsStartsWith s pngB64Header then ⟨s.data.drop pngB64Header.data.length⟩
  else if jsStartsWith s jpegB64Header then ⟨s.data.drop jpegB64Header.data.length⟩
  else s

/-- Embeds `formatImageContent` (aiClient.ts lines 333-368). -/
def formatImageContent (provider : String) (imageData : String) : FormattedContent :=
  if provider = "anthropic" then
    .blocks
      [ .anthropicImage (if jsStartsWith imageData pngHeader then pngMime else jpegMime)
          (stripImageHeader imageData),
        .textBlock describeImageText ]
  else if provider = "openai" then
    .blocks [ .imageUrl imageData ]
  else if provider = "google" then
    .blocks
      [ .googleText heresAnImageText,
        .inlineData imageData
          (if jsStartsWith imageData pngHeader then pngMime else jpegMime) ]
  else if provider = "mistral" ∨ provider = "cohere" then
    .text ("[Image input not supported for " ++ provider ++ "]")
  else
    .text imagePlainText

/-- The media type of an anthropic-shaped `formatImageContent` output. -/
def anthropicMediaType : FormattedContent → Option String
  | .blocks (.anthropicImage m _ :: _) => some m
  | _ => none

/-- Characterwise check that the second list occurs contiguously
somewhere inside the first. -/
def listContainsSeg : List Char → List Char → Bool
  | [], p => listStarts [] p
  | c :: tl, p => listStarts (c :: tl) p || listContainsSeg tl p

/-- Substring containment on strings (the claim's "contains"). -/
def strContainsSeg (s p : String) : Bool :=
  listContainsSeg s.data p.data

/-- The comma ending the header of a data URL. -/
def commaStr : String := ","

/-- Characters of a data URL up to (excluding) its first comma. -/
def takeUntilComma : List Char → List Char
  | [] => []
  | c :: tl => if commaStr.data = [c] then [] else c :: takeUntilComma tl

/-- The prefix of a data URL before the base64 payload: everything up to
its first comma. -/
def dataUrlHeader (s : String) : String :=
  ⟨takeUntilComma s.data⟩

/-- Provider name constant for concrete `formatImageContent` runs. -/
def mistralName : String := "mistral"

/-- Provider name constant for concrete `formatImageContent` runs. -/
def cohereName : String := "cohere"

/-- The png data URL of the claimed round-trip scenario. -/
def c7Png : String := "data:image/png;base64,AAAA"

/-- The payload of the claimed round-trip scenario. -/
def payloadAAAA : String := "AAAA"

/-- A data URL whose header contains `image/png` without starting with
`data:image/png` (it still starts with `data:image`, so the adapters'
call-site guard admits it). -/
def c7Odd : String := "data:imagez-image/png;base64,AAAA"

/-- The call-site guard of the adapters: content is routed to
`formatImageContent` when it starts with `data:image`. -/
def dataImageGuard : String := "data:image"

/-- Counterexample to C7's detection rule as stated: for `c7Odd` the
data-URL prefix contains `image/png` (and `c7Odd` passes the adapters'
`startsWith('data:image')` call-site guard), yet the code detects
`image/jpeg`, because the code tests `startsWith('data:image/png')`,
not containment. -/
theorem formatImage_contains_rule_counterexample :
    strContainsSeg (dataUrlHeader c7Odd) pngMime = true ∧
    jsStartsWith c7Odd dataImageGuard = true ∧
    anthropicMediaType (formatImageContent anthropicName c7Odd) = some jpegMime ∧
    jpegMime ≠ pngMime := by
  exact ⟨by decide, by decide, by decide, by decide⟩

/-- C7 (amended): `formatImageContent('anthropic', 'data:image/png;base64,AAAA')`
yields the structured block with media type `image/png` and the payload
`AAAA` with the data-URL header stripped, followed by the trailing
descriptive text block; and for every input string the detected media
type is `image/png` exactly when the string starts with
`data:image/png`, else `image/jpeg`. -/
theorem formatImage_anthropic_round_trip :
    formatImageContent anthropicName c7Png =
      .blocks [ .anthropicImage pngMime payloadAAAA, .textBlock describeImageText ] ∧
    ∀ s, anthropicMediaType (formatImageContent anthropicName s) =
      some (if jsStartsWith s pngHeader then pngMime else jpegMime) := by
  constructor
  · decide
  · intro s
    by_cases h : jsStartsWith s pngHeader = true
    · simp [formatImageContent, anthropicMediaType, anthropicName, h]
    · have h' : jsStartsWith s pngHeader = false := by simpa using h
      simp [formatImageContent, anthropicMediaType, anthropicName, h']

/-- The `type` tag marking image messages. -/
def imageTag : String := "image"

/-- A message of the mistral request body: role plus flattened string
content. -/
structure MistralMsg where
  role : String
  content : String
deriving DecidableEq

/-- Embeds the request-message construction of `mistralChat`
(aiClient.ts lines 299-308): image-typed messages are removed up front
(`messages.filter(msg => msg.type !== 'image')`), then string content
passes through and array content goes through `JSON.stringify`
(an environment parameter here). `formatImageContent` is not consulted
anywhere on this path. -/
def mistralRequestMessages (stringify : List ContentItem → String)
    (messages : List AIMessage) : List MistralMsg :=
  (messages.filter fun msg => msg.type != some imageTag).map fun msg =>
    ⟨msg.role, match msg.content with
      | .str s => s
      | .arr items => stringify items⟩

/-- Role string of user messages. -/
def userRole : String := "user"

/-- An image-marked message carrying a png data URL. -/
def imageMsg : AIMessage :=
  { role := userRole, content := .str c7Png, type := some imageTag }

/-- The fixed no-vision placeholder for mistral. -/
def mistralPlaceholder : String := "[Image input not supported for mistral]"

/-- The fixed no-vision placeholder for cohere. -/
def coherePlaceholder : String := "[Image input not supported for cohere]"

/-- Counterexample to C8 as stated: the mistral request built from a
history holding one image message is empty — the image message is
dropped by the filter, so no placeholder (nor anything else) is sent for
it, and the placeholder string never enters the request. -/
theorem mistral_image_request_counterexample :
    mistralRequestMessages (fun _ => imageTag) [imageMsg] = [] ∧
    (mistralRequestMessages (fun _ => imageTag) [imageMsg]).all
      (fun msg => msg.content != mistralPlaceholder) = true := by
  exact ⟨by decide, by decide⟩

/-- C8 (amended): `formatImageContent` yields the fixed textual
placeholder for the no-vision providers mistral and cohere (and raises
no error — it is total), but `mistralChat` never consults it: image-typed
messages are dropped from the history before the request is built, so
the request coincides with the request for the history with its image
messages removed. -/
theorem noVision_placeholder_and_image_drop :
    (∀ s, formatImageContent mistralName s = .text mistralPlaceholder) ∧
    (∀ s, formatImageContent cohereName s = .text coherePlaceholder) ∧
    (∀ (stringify : List ContentItem → String) (messages : List AIMessage),
      mistralRequestMessages stringify messages =
        mistralRequestMessages stringify
          (messages.filter fun msg => msg.type != some imageTag)) := by
  refine ⟨fun s => rfl, fun s => rfl, fun stringify messages => ?_⟩
  simp [mistralRequestMessages, List.filter_filter]

/-- Role string of the system prompt message. -/
def systemRole : String := "system"

/-- The default session label of `generateSessionOverview`. -/
def newChatLabel : String := "New Chat"

/-- How one `aiClient.chat` call ends, as observed by
`generateSessionOverview`: the promise rejects with an error, or it
resolves with `completed` holding the `onComplete` argument when that
callback fired (`none` when it never fired, e.g. after cancellation). -/
inductive ChatCallOutcome where
  | thrown (e : ChatError)
  | returned (completed : Option String)

/-- The two-message history `generateSessionOverview` sends: the session
summary prompt and only the user's message (chat.manager.ts lines
140-143). -/
def overviewMessages (summaryPrompt message : String) : List AIMessage :=
  [ { role := systemRole, content := .str summaryPrompt },
    { role := userRole, content := .str message } ]

/-- Embeds `generateSessionOverview` (chat.manager.ts lines 133-153):
with no client set the default label is returned at once; otherwise one
chat call is issued on `overviewMessages`, `overview` starts empty and
is written only by `onComplete`, a thrown error is swallowed into the
default label, and a falsy (empty) overview is replaced by the default
label via `overview || "New Chat"`. `chatFn` is the behaviour of the
client's `chat` for this call. -/
def generateSessionOverview (hasClient : Bool)
    (chatFn : List AIMessage → ChatCallOutcome)
    (summaryPrompt message : String) : String :=
  if !hasClient then newChatLabel
  else
    match chatFn (overviewMessages summaryPrompt message) with
    | .thrown _ => newChatLabel
    | .returned none => newChatLabel
    | .returned (some s) => if s = "" then newChatLabel else s

/-- C9: the secondary summary call is best-effort and isolated:
`generateSessionOverview` consults the client only through one chat call
on the two-message history built from the user's message (so two chat
behaviours agreeing on that history give the same overview), it is a
total function into `String` (a failing chat call can never propagate
out of it), and it returns the default label `"New Chat"` whenever that
call throws, never completes, or completes with empty text — and the
completed text itself otherwise. -/
theorem generateSessionOverview_best_effort (hasClient : Bool)
    (chatFn chatFn2 : List AIMessage → ChatCallOutcome)
    (summaryPrompt message : String) :
    (chatFn (overviewMessages summaryPrompt message) =
        chatFn2 (overviewMessages summaryPrompt message) →
      generateSessionOverview hasClient chatFn summaryPrompt message =
        generateSessionOverview hasClient chatFn2 summaryPrompt message) ∧
    (∀ e, chatFn (overviewMessages summaryPrompt message) = .thrown e →
      generateSessionOverview hasClient chatFn summaryPrompt message = newChatLabel) ∧
    (chatFn (overviewMessages summaryPrompt message) = .returned none →
      generateSessionOverview hasClient chatFn summaryPrompt message = newChatLabel) ∧
    (∀ s, hasClient = true →
      chatFn (overviewMessages summaryPrompt message) = .returned (some s) →
      generateSessionOverview hasClient chatFn summaryPrompt message =
        (if s = "" then newChatLabel else s)) := by
  cases hasClient with
  | false =>
      exact ⟨fun _ => rfl, fun e _ => rfl, fun _ => rfl, fun s hcl => absurd hcl (by simp)⟩
  | true =>
      refine ⟨fun hagree => ?_, fun e he => ?_, fun hn => ?_, fun s _ hs => ?_⟩
      · simp [generateSessionOverview, hagree]
      · simp [generateSessionOverview, he]
      · simp [generateSessionOverview, hn]
      · simp [generateSessionOverview, hs]

/-- A transport error used in the C9 witness. -/
def errBoom : ChatError := .streamError imageTag

/-- A non-empty overview text used in the C9 witness. -/
def overviewTxt : String := "Title"

/-- A user message used in the C9 witness. -/
def msgHi : String := "hi"

/-- Witness for C9: with a client set, a throwing chat call yields the
default label, and a chat call completing with non-empty text yields
that text. -/
theorem generateSessionOverview_best_effort_witness :
    generateSessionOverview true (fun _ => .thrown errBoom) msgHi msgHi = newChatLabel ∧
    generateSessionOverview true (fun _ => .returned (some overviewTxt)) msgHi msgHi =
      overviewTxt := by
  constructor
  · exact (generateSessionOverview_best_effort true (fun _ => .thrown errBoom)
      (fun _ => .thrown errBoom) msgHi msgHi).2.1 errBoom rfl
  · exact ((generateSessionOverview_best_effort true
      (fun _ => .returned (some overviewTxt))
      (fun _ => .returned (some overviewTxt)) msgHi msgHi).2.2.2 overviewTxt rfl rfl).trans
      (by decide)

/-- Backend SDK handles the `AIClient` constructor may assign. -/
inductive BackendHandle where
  | anthropic | openai | google | cohere | mistral
deriving DecidableEq

/-- Config passed to the `AIClient` constructor (aiClient.ts 18-22). -/
structure AIClientConfig where
  provider : String
  apiKey : Option String := none
  model : Option String := none
deriving DecidableEq

/-- Fields of `AIClient` assigned during construction (lines 29-66):
which SDK handle was created and which model string was assigned. The
`model` field is declared with a definite-assignment assertion
(`model!: string`) and stays unassigned (`none`) when no switch case
matches. -/
structure AIClientInit where
  provider : String
  backend : Option BackendHandle
  model : Option String
deriving DecidableEq

/-- JS `config.model || fallback`: undefined and empty are falsy. -/
def jsModelOr (m : Option String) (fallback : String) : String :=
  match m with
  | some s => if s = "" then fallback else s
  | none => fallback

/-- Default model of the anthropic constructor arm. -/
def claudeDefault : String := "claude-3-sonnet-20240229"

/-- Default model of the openai constructor arm. -/
def gptDefault : String := "gpt-4-turbo-preview"

/-- Default model of the google constructor arm. -/
def geminiDefault : String := "gemini-pro"

/-- Default model of the cohere constructor arm. -/
def commandDefault : String := "command"

/-- Default model of the mistral constructor arm. -/
def mistralDefault : String := "mistral-medium"

/-- Embeds the `AIClient` constructor switch (aiClient.ts lines 40-66):
`this.provider` is always set from the config; each recognized provider
arm creates its SDK handle and assigns its (possibly defaulted) model;
an unrecognized provider id falls through the switch, constructing no
backend handle and assigning no model, without throwing. -/
def AIClientConstruct (config : AIClientConfig) : AIClientInit :=
  if config.provider = "anthropic" then
    ⟨config.provider, some .anthropic, some (jsModelOr config.model claudeDefault)⟩
  else if config.provider = "openai" then
    ⟨config.provider, some .openai, some (jsModelOr config.model gptDefault)⟩
  else if config.provider = "google" then
    ⟨config.provider, some .google, some (jsModelOr config.model geminiDefault)⟩
  else if config.provider = "cohere" then
    ⟨config.provider, some .cohere, some (jsModelOr config.model commandDefault)⟩
  else if config.provider = "mistral" then
    ⟨config.provider, some .mistral, some (jsModelOr config.model mistralDefault)⟩
  else
    ⟨config.provider, none, none⟩

/-- Embeds the dispatch switch of `chat` (aiClient.ts lines 88-101):
which provider branch a chat call takes, or the `Unsupported provider`
error thrown for any other provider id — the surrounding catch (lines
102-107) logs and rethrows the same error unchanged. -/
def chatRoute (provider : String) : Except ChatError BackendHandle :=
  if provider = "anthropic" then .ok .anthropic
  else if provider = "openai" then .ok .openai
  else if provider = "google" then .ok .google
  else if provider = "cohere" then .ok .cohere
  else if provider = "mistral" then .ok .mistral
  else .error (.unsupportedProvider provider)

/-- C10: constructing an `AIClient` with an unrecognized provider id
never fails — the constructor is total and yields a client with no
backend handle and no model assigned — while every subsequent `chat`
dispatch for that provider throws the `Unsupported provider` error, so
the unsupported-provider failure is deferred from construction to the
chat call. -/
theorem unknown_provider_deferred_failure (config : AIClientConfig)
    (h1 : config.provider ≠ "anthropic") (h2 : config.provider ≠ "openai")
    (h3 : config.provider ≠ "google") (h4 : config.provider ≠ "cohere")
    (h5 : config.provider ≠ "mistral") :
    AIClientConstruct config = ⟨config.provider, none, none⟩ ∧
    chatRoute config.provider = .error (.unsupportedProvider config.provider) := by
  constructor
  · simp [AIClientConstruct, h1, h2, h3, h4, h5]
  · simp [chatRoute, h1, h2, h3, h4, h5]

/-- An unrecognized provider id. -/
def fooName : String := "foo"

/-- A config naming an unrecognized provider. -/
def fooCfg : AIClientConfig := { provider := fooName }

/-- Witness for C10 at the unrecognized provider id `foo`. -/
theorem unknown_provider_deferred_failure_witness :
    AIClientConstruct fooCfg = ⟨fooName, none, none⟩ ∧
    chatRoute fooName = .error (.unsupportedProvider fooName) :=
  unknown_provider_deferred_failure fooCfg (by decide) (by decide) (by decide)
    (by decide) (by decide)
